import Mathlib

/-!
Verification of the match-session coordinator of the 3D-CHESSGAME repository.

The coordinator lives in `src/App.tsx`: it owns the shared `Room` record
(declared in `src/types.ts`), and mutates it through whole-record replaces
issued by the handlers `createRoom`, `joinRoom`, `handleGuestReady`,
`handleStartGame`, `handleSquareClick`/`handleMove`, the auto-move branch of
`updateTimer`, `handleResign`, `handleGoHome`, `handlePlayAgain`,
`handleSendMessage`, the heartbeat effect, and the `checkConnection` interval.

This file embeds those handlers as pure Lean functions over a `Room` record.
Timestamps are naturals (milliseconds); the chess engine (chess.js) is kept
abstract behind an `Oracle` of the operations the coordinator calls
(`chess.get`, `chess.moves`, and the fen produced by the forced-move code).
-/

namespace ChessGame

/-- Piece / turn color: the union `white | black` of `types.ts`. -/
inductive Color where
  | white
  | black
deriving DecidableEq, Repr

/-- Turn flip, as computed by the conditional on `currentTurn` in the source. -/
def Color.flip : Color → Color
  | .white => .black
  | .black => .white

/-- Participant role: the union `host | guest` used by
`previousLoser` and `disconnectedPlayer`. -/
inductive Side where
  | host
  | guest
deriving DecidableEq, Repr

/-- The opposite participant. -/
def Side.other : Side → Side
  | .host => .guest
  | .guest => .host

/-- Value space of the `winner` field: `host | guest | draw`. -/
inductive Winner where
  | host
  | guest
  | draw
deriving DecidableEq, Repr

/-- Injection of a participant side into the value space of the `winner` field. -/
def Side.toWinner : Side → Winner
  | .host => .host
  | .guest => .guest

/-- Room lifecycle status:
`waiting | ready | playing | paused | finished` (`types.ts`). -/
inductive Status where
  | waiting
  | ready
  | playing
  | paused
  | finished
deriving DecidableEq, Repr

/-- Chat entry, from `ChatMessage` in `types.ts`. -/
structure ChatMessage where
  id : String
  senderId : String
  senderName : String
  text : String
  timestamp : Nat
deriving DecidableEq, Repr

/-- The shared `Room` record (final declaration in `types.ts`).
`messages?` is optional in TypeScript; an absent list is modelled as `[]`.
The win/loss snapshots `hostRecord`/`guestRecord` are modelled as optional
`(wins, losses)` pairs. -/
structure Room where
  code : String
  hostId : String
  hostNickname : String
  hostRecord : Option (Nat × Nat)
  guestId : Option String
  guestNickname : Option String
  guestRecord : Option (Nat × Nat)
  guestReady : Bool
  status : Status
  currentTurn : Color
  turnStartTime : Nat
  fen : String
  lastMove : Option (String × String)
  winner : Option Winner
  loserStarts : Bool
  previousLoser : Option Side
  messages : List ChatMessage
  hostLastActive : Nat
  guestLastActive : Nat
  disconnectedPlayer : Option Side
  disconnectedAt : Option Nat
  isPrivate : Bool
  createdAt : Nat
deriving DecidableEq, Repr

/-- A chess piece as returned by `chess.get`: its color, and its type
(one of the characters k, q, r, b, n, p). -/
structure Piece where
  ptype : Char
  color : Color
deriving DecidableEq, Repr

/-- The move legality oracle: the chess.js operations the coordinator calls,
kept abstract (the spec treats the oracle as an external collaborator).
`pieceAt fen sq` is `chess.get(sq)` on a loaded fen;
`movesFrom fen sq` is the destination list of `chess.moves({square: sq})`;
`movesAll fen c` is the verbose move list of `chess.moves()` after the turn field of the fen has been forced to `c` (the auto-move branch does exactly this);
`applyForce fen from to newTurn` is the fen produced by the forced-move sequence of the coordinator (`remove`/`put` with queen promotion, then the fen with
its turn field overwritten by `newTurn`). -/
structure Oracle where
  pieceAt : String → String → Option Piece
  movesFrom : String → String → List String
  movesAll : String → Color → List (String × String)
  applyForce : String → String → String → Color → String

/-- Initial position fen, the value of `chess.fen()` on a fresh instance
(used by `createRoom` and by `handlePlayAgain` after `chess.reset()`). -/
def initialFen : String :=
  "rnbqkbnr/pppppppp/8/8/8/8/PPPPPPPP/RNBQKBNR w KQkq - 0 1"

/-- Local color of a participant, from `getMyColor` (App.tsx 1482-1493):
`previousLoser == host` puts the host on white, `guest` puts the host on
black, and the default (first game) puts the host on white. -/
def getMyColor (room : Room) (isHost : Bool) : Color :=
  match room.previousLoser with
  | some .host => if isHost then .white else .black
  | some .guest => if isHost then .black else .white
  | none => if isHost then .white else .black

/-- Turn ownership test, from `isMyTurn` (App.tsx 1496-1500): the status is
`playing` and the `currentTurn` of the room equals the color of the local participant. -/
def isMyTurn (room : Room) (isHost : Bool) : Prop :=
  room.status = .playing ∧ room.currentTurn = getMyColor room isHost

instance (room : Room) (isHost : Bool) : Decidable (isMyTurn room isHost) := by
  unfold isMyTurn; infer_instance

/-- The record produced by a committed move replace: both `handleMove`
(App.tsx 1618-1626) and the auto-move branch (App.tsx 1561-1569) write this
shape — fen updated, turn flipped, `turnStartTime` refreshed, `lastMove` set,
and unconditionally status `playing`, winner `null`. -/
def moveWrite (room : Room) (f t newFen : String) (now : Nat) : Room :=
  { room with
    fen := newFen
    currentTurn := room.currentTurn.flip
    turnStartTime := now
    lastMove := some (f, t)
    status := .playing
    winner := none }

/-- Manual move commit, from `handleMove` (App.tsx 1585-1630): if no piece
sits on the source square the handler returns without writing; otherwise it
force-applies the move (ignoring chess rules at this point) and replaces the
room with the `moveWrite` shape. -/
def handleMove (oracle : Oracle) (room : Room) (f t : String) (now : Nat) :
    Option Room :=
  match oracle.pieceAt room.fen f with
  | none => none
  | some _ => some (moveWrite room f t (oracle.applyForce room.fen f t room.currentTurn.flip) now)

/-- Local selection state of the input layer: the `selectedSquare` and
`validMoves` React states consumed by `handleSquareClick`. -/
structure ClickState where
  selectedSquare : Option String
  validMoves : List String
deriving DecidableEq, Repr

/-- Piece-selection step shared by both branches of `handleSquareClick`:
a square is selectable when it holds a piece of the color of the local player,
and selecting it stores `chess.moves({square})` as the valid-move list. -/
def trySelect (oracle : Oracle) (room : Room) (isHost : Bool) (square : String) :
    Option ClickState :=
  match oracle.pieceAt room.fen square with
  | some p =>
      if p.color = getMyColor room isHost then
        some ⟨some square, oracle.movesFrom room.fen square⟩
      else none
  | none => none

/-- Click dispatch, from `handleSquareClick` (App.tsx 1633-1661). Returns the
next selection state and the room replace issued, if any. Clicks are ignored
unless the room is `playing` and it is the turn of the local player; with a square
already selected, a click on one of its `validMoves` commits the move through
`handleMove` (which clears the selection when it writes), any other click
re-selects or clears; with nothing selected, a click selects or is ignored. -/
def handleSquareClick (oracle : Oracle) (room : Room) (isHost : Bool)
    (cs : ClickState) (square : String) (now : Nat) : ClickState × Option Room :=
  if room.status = .playing ∧ isMyTurn room isHost then
    match cs.selectedSquare with
    | some sel =>
        if square ∈ cs.validMoves then
          match handleMove oracle room sel square now with
          | some w => (⟨none, []⟩, some w)
          | none => (cs, none)
        else
          match trySelect oracle room isHost square with
          | some cs' => (cs', none)
          | none => (⟨none, []⟩, none)
    | none =>
        match trySelect oracle room isHost square with
        | some cs' => (cs', none)
        | none => (cs, none)
  else (cs, none)

/- Note on staleness: `selectedSquare`/`validMoves` are React state that
survives remote position-changing writes — `handleResign` clears no
selection state, and a play-again write arriving from the peer resets the
fen through the listener (App.tsx 1708-1726), which clears no selection
state either. A later click is checked against the carried-over
`validMoves`, not against `chess.moves` of the position current at commit
time. -/

/-- One run of `updateTimer` (App.tsx 1509-1573), threading the `autoMovedRef`
flag. The auto-move fires when the 30-second clock has run out
(`remaining === 0` with `remaining = max(0, 30 - floor((now - turnStartTime)/1000))`;
natural-number truncated subtraction renders the clamping), it is the local
turn of the local player, and the flag is still clear. The flag is raised before the
move list is consulted, so a turn with no legal moves still consumes the
flag. `pick` models the random choice among the listed moves. -/
def updateTimer (oracle : Oracle)
    (pick : List (String × String) → Option (String × String))
    (room : Room) (isHost : Bool) (autoMoved : Bool) (now : Nat) :
    Bool × Option Room :=
  let elapsed := (now - room.turnStartTime) / 1000
  let remaining := 30 - elapsed
  if remaining = 0 ∧ isMyTurn room isHost ∧ autoMoved = false then
    match pick (oracle.movesAll room.fen (getMyColor room isHost)) with
    | some (f, t) =>
        match oracle.pieceAt room.fen f with
        | some _ =>
            (true, some (moveWrite room f t (oracle.applyForce room.fen f t room.currentTurn.flip) now))
        | none => (true, none)
    | none => (true, none)
  else (autoMoved, none)

/-- The pause write of `checkConnection` (App.tsx 1408-1413): the peer has
been silent for over 20 seconds during `playing`. -/
def pauseWrite (room : Room) (isHost : Bool) (now : Nat) : Room :=
  { room with
    status := .paused
    disconnectedPlayer := some (if isHost then Side.guest else Side.host)
    disconnectedAt := some now }

/-- The forfeit write of `checkConnection` (App.tsx 1422-1429): more than 60
seconds paused; the disconnected side loses. -/
def forfeitWrite (room : Room) : Room :=
  { room with
    status := .finished
    winner := some (if room.disconnectedPlayer = some Side.host then Winner.guest else Winner.host)
    previousLoser := room.disconnectedPlayer
    disconnectedPlayer := none
    disconnectedAt := none }

/-- The resume write of `checkConnection` (App.tsx 1435-1440): the heartbeat of the peer is fresh again while paused. Only `status`, `disconnectedPlayer`
and `disconnectedAt` change. -/
def resumeWrite (room : Room) : Room :=
  { room with
    status := .playing
    disconnectedPlayer := none
    disconnectedAt := none }

/-- The forfeit branch guard of `checkConnection`: the JavaScript condition
on `status` being paused and `disconnectedAt` being truthy followed by
`pausedDuration > 60000`. A zero `disconnectedAt` is falsy in JavaScript,
hence the explicit `dAt ≠ 0`. -/
def forfeitCheck (room : Room) (now : Nat) : Option Room :=
  match room.disconnectedAt with
  | some dAt =>
      if room.status = .paused ∧ dAt ≠ 0 ∧ 60000 < now - dAt then
        some (forfeitWrite room)
      else none
  | none => none

/-- The heartbeat timestamp of the peer, as read by the tick of the local
participant (App.tsx 1403). -/
def opponentLastActive (room : Room) (isHost : Bool) : Nat :=
  if isHost then room.guestLastActive else room.hostLastActive

/-- One tick of the `checkConnection` interval (App.tsx 1399-1442), reduced
to the final store value it leaves. The source evaluates its three branch
guards against the same stale `room` snapshot and issues up to two replaces
in the order pause, forfeit, resume; the store keeps the last write, so the
resume write wins over the forfeit write when both fire, and the pause branch
(which requires status `playing`) can never fire together with the
other two (which require `paused`). `none` means the tick wrote nothing. -/
def checkConnection (room : Room) (isHost : Bool) (now : Nat) : Option Room :=
  let timeSinceActive := now - opponentLastActive room isHost
  if room.status = .paused ∧ timeSinceActive < 15000 ∧ room.disconnectedPlayer ≠ none then
    some (resumeWrite room)
  else
    match forfeitCheck room now with
    | some w => some w
    | none =>
        if 20000 < timeSinceActive ∧ room.status = .playing ∧ room.disconnectedPlayer = none then
          some (pauseWrite room isHost now)
        else none

/-- Room creation, from `createRoom` (App.tsx 1664-1700). -/
def createRoom (playerId nickname : String) (myRecord : Option (Nat × Nat))
    (isPrivate : Bool) (code : String) (now : Nat) : Room :=
  { code := code
    hostId := playerId
    hostNickname := nickname
    hostRecord := myRecord
    guestId := none
    guestNickname := none
    guestRecord := none
    guestReady := false
    status := .waiting
    currentTurn := .white
    turnStartTime := now
    fen := initialFen
    lastMove := none
    winner := none
    loserStarts := false
    previousLoser := none
    messages := []
    hostLastActive := now
    guestLastActive := 0
    disconnectedPlayer := none
    disconnectedAt := none
    isPrivate := isPrivate
    createdAt := now }

/-- Outcome of a join attempt: the two surfaced errors write nothing,
`write` is the guest-join replace, and `alreadyJoined` is the no-write path
taken when the stored guest id equals the id of the joining player. -/
inductive JoinResult where
  | roomNotFound
  | roomFull
  | write (r : Room)
  | alreadyJoined (r : Room)
deriving DecidableEq, Repr

/-- Join attempt, from `joinRoom` (App.tsx 1730-1779): an absent record is
"room not found"; a present guest with a different id is "room is full";
with no guest, the join replace sets the guest identity, clears `guestReady`,
stamps `guestLastActive` and sets status `waiting`. -/
def joinRoom (data : Option Room) (playerId nickname : String)
    (myRecord : Option (Nat × Nat)) (now : Nat) : JoinResult :=
  match data with
  | none => .roomNotFound
  | some r =>
      match r.guestId with
      | some g => if g ≠ playerId then .roomFull else .alreadyJoined r
      | none =>
          .write { r with
            guestId := some playerId
            guestNickname := some nickname
            guestRecord := myRecord
            guestReady := false
            status := .waiting
            guestLastActive := now }

/-- Guest readiness write, from `handleGuestReady` (App.tsx 1875-1883). -/
def guestReadyWrite (room : Room) : Room :=
  { room with guestReady := true, status := .ready }

/-- Game start write, from `handleStartGame` (App.tsx 1886-1895). -/
def startGameWrite (room : Room) (now : Nat) : Room :=
  { room with status := .playing, turnStartTime := now }

/-- Rematch write, from `handlePlayAgain` (App.tsx 1782-1801): position reset,
white to move, clock restarted, winner cleared. -/
def playAgainWrite (room : Room) (now : Nat) : Room :=
  { room with
    fen := initialFen
    currentTurn := .white
    turnStartTime := now
    lastMove := none
    status := .playing
    winner := none }

/-- Resignation write, from `handleResign` (App.tsx 1804-1823): the resigner
loses, the opponent wins. -/
def resignWrite (room : Room) (isHost : Bool) : Room :=
  { room with
    status := .finished
    winner := some (if isHost then Winner.guest else Winner.host)
    previousLoser := some (if isHost then Side.host else Side.guest) }

/-- Forfeit write of a leave during `playing`/`paused`, from `handleGoHome`
(App.tsx 1839-1844): the leaver loses. Note that it does not touch
`disconnectedPlayer` or `disconnectedAt`. -/
def leaveForfeitWrite (room : Room) (isHost : Bool) : Room :=
  { room with
    status := .finished
    winner := some (if isHost then Winner.guest else Winner.host)
    previousLoser := some (if isHost then Side.host else Side.guest) }

/-- Leave, from `handleGoHome` (App.tsx 1826-1857): during `playing`/`paused`
the leaver forfeits; otherwise the host deletes the record (`none`) — with no
guard on `guestId` — and the guest clears the guest fields. -/
def handleGoHome (room : Room) (isHost : Bool) : Option Room :=
  if room.status = .playing ∨ room.status = .paused then
    some (leaveForfeitWrite room isHost)
  else if isHost then
    none
  else
    some { room with guestId := none, guestNickname := none, guestReady := false }

/-- Heartbeat field write (App.tsx 1381-1385): the caller stamps only its own
`*LastActive` field. -/
def sendHeartbeat (room : Room) (isHost : Bool) (now : Nat) : Room :=
  if isHost then { room with hostLastActive := now }
  else { room with guestLastActive := now }

/-- Chat append write, from `handleSendMessage` (App.tsx 1898-1916). -/
def sendMessageWrite (room : Room) (m : ChatMessage) : Room :=
  { room with messages := room.messages ++ [m] }

/-- One coordinator event against an existing room, carrying the acting
participant and the local clock value where the handler reads them. Move
events carry the oracle-produced fen abstractly (any string), which
over-approximates the concrete engine. -/
inductive Event where
  | join (playerId nickname : String) (myRecord : Option (Nat × Nat)) (now : Nat)
  | declareReady (isHost : Bool)
  | startGame (isHost : Bool) (now : Nat)
  | move (isHost : Bool) (f t newFen : String) (now : Nat)
  | autoMove (isHost : Bool) (f t newFen : String) (now : Nat)
  | resign (isHost : Bool)
  | leave (isHost : Bool)
  | tick (isHost : Bool) (now : Nat)
  | playAgain (now : Nat)
  | heartbeat (isHost : Bool) (now : Nat)
  | chat (m : ChatMessage)
deriving DecidableEq, Repr

/-- Small-step semantics of the coordinator on the stored room: each event is
run through its handler with the guards the source imposes; a rejected event
leaves the record unchanged; `none` means the record was deleted. -/
def stepRoom (room : Room) (e : Event) : Option Room :=
  match e with
  | .join pid nick rec now =>
      match joinRoom (some room) pid nick rec now with
      | .write r => some r
      | _ => some room
  | .declareReady isHost =>
      if isHost then some room else some (guestReadyWrite room)
  | .startGame isHost now =>
      if isHost ∧ room.guestReady then some (startGameWrite room now) else some room
  | .move isHost f t newFen now =>
      if isMyTurn room isHost then some (moveWrite room f t newFen now) else some room
  | .autoMove isHost f t newFen now =>
      if isMyTurn room isHost then some (moveWrite room f t newFen now) else some room
  | .resign isHost =>
      if room.status = .playing then some (resignWrite room isHost) else some room
  | .leave isHost => handleGoHome room isHost
  | .tick isHost now =>
      if room.status = .playing ∨ room.status = .paused then
        match checkConnection room isHost now with
        | some w => some w
        | none => some room
      else some room
  | .playAgain now => some (playAgainWrite room now)
  | .heartbeat isHost now =>
      if room.status = .playing ∨ room.status = .paused then
        some (sendHeartbeat room isHost now)
      else some room
  | .chat m => some (sendMessageWrite room m)

/-- Reachable room states: a freshly created room, closed under coordinator
events that keep the record alive. -/
inductive Reachable : Room → Prop where
  | init (playerId nickname : String) (myRecord : Option (Nat × Nat))
      (isPrivate : Bool) (code : String) (now : Nat) :
      Reachable (createRoom playerId nickname myRecord isPrivate code now)
  | step (r : Room) (e : Event) (r' : Room) :
      Reachable r → stepRoom r e = some r' → Reachable r'

/-- Folding a list of events over a room, stopping if the record is deleted. -/
def runEvents (r : Room) (es : List Event) : Option Room :=
  match es with
  | [] => some r
  | e :: rest =>
      match stepRoom r e with
      | some r' => runEvents r' rest
      | none => none

/-- Concrete oracle used by witnesses: a white pawn on every square, one
legal destination per square, a fixed forced-move fen. -/
def oracle1 : Oracle :=
  { pieceAt := fun _ _ => some ⟨'p', Color.white⟩
    movesFrom := fun _ _ => ["e4"]
    movesAll := fun _ _ => [("e2", "e4")]
    applyForce := fun _ _ _ _ => "fen-after" }

/-- A room in mid-game: guest joined and ready, status `playing`, white to
move, clock started at 0. -/
def playingRoom : Room :=
  { createRoom "h0" "Hal" none false "10000" 0 with
    guestId := some "g0", guestNickname := some "Gus", guestReady := true,
    status := Status.playing }

/-- Oracle for the staleness counterexample: on the mid-game position
`fen-A` the piece on d1 may move to d5; on the reset initial position no
square has any legal destination (as is true of d1 in the real initial
position). -/
def oracle2 : Oracle :=
  { pieceAt := fun _ _ => some ⟨'q', Color.white⟩
    movesFrom := fun fen sq => if fen = "fen-A" ∧ sq = "d1" then ["d5"] else []
    movesAll := fun _ _ => []
    applyForce := fun _ _ _ _ => "fen-after-stale" }

/-- Mid-game room on position `fen-A`, host (white) to move. -/
def c1room1 : Room := { playingRoom with fen := "fen-A" }

/-- The room after the host resigns from `c1room1`. -/
def c1room2 : Room :=
  { c1room1 with
    status := Status.finished, winner := some Winner.guest,
    previousLoser := some Side.host }

/-- The room after the guest clicks play again at 5000: position reset to
the initial fen, white to move; `previousLoser = host` makes the host white
again. -/
def c1room3 : Room :=
  { c1room2 with
    fen := initialFen, currentTurn := Color.white, turnStartTime := 5000,
    lastMove := none, status := Status.playing, winner := none }

/-- Initial room of the C2 trace. -/
def c2start : Room := createRoom "h1" "Ann" none false "12345" 100

/-- C2 trace: guest joins and readies, host starts and resigns, the guest
leaves the finished room, and a second guest joins the leftover record. -/
def c2events : List Event :=
  [ Event.join "g1" "Bea" none 1000, Event.declareReady false,
    Event.startGame true 2000, Event.resign true,
    Event.leave false, Event.join "g2" "Cy" none 5000 ]

/-- The room the C2 trace ends in: status `waiting` with a stale non-null
winner carried over from the previous game. -/
def c2bad : Room :=
  { code := "12345", hostId := "h1", hostNickname := "Ann", hostRecord := none
    guestId := some "g2", guestNickname := some "Cy", guestRecord := none
    guestReady := false, status := Status.waiting, currentTurn := Color.white
    turnStartTime := 2000, fen := initialFen, lastMove := none
    winner := some Winner.guest, loserStarts := false
    previousLoser := some Side.host, messages := []
    hostLastActive := 100, guestLastActive := 5000
    disconnectedPlayer := none, disconnectedAt := none
    isPrivate := false, createdAt := 100 }

/-- The finished room after the first four C2 events (host resigned). -/
def c2fin : Room :=
  { code := "12345", hostId := "h1", hostNickname := "Ann", hostRecord := none
    guestId := some "g1", guestNickname := some "Bea", guestRecord := none
    guestReady := true, status := Status.finished, currentTurn := Color.white
    turnStartTime := 2000, fen := initialFen, lastMove := none
    winner := some Winner.guest, loserStarts := false
    previousLoser := some Side.host, messages := []
    hostLastActive := 100, guestLastActive := 1000
    disconnectedPlayer := none, disconnectedAt := none
    isPrivate := false, createdAt := 100 }

/-- Initial room of the C3 trace. -/
def c3start : Room := createRoom "h3" "Hei" none false "33333" 100

/-- C3 trace: guest joins and readies, host starts; at 30000 the guest
heartbeat (stamped 1000 at join) is stale so the host tick pauses the room;
then the host leaves while paused. -/
def c3events : List Event :=
  [ Event.join "g3" "Gia" none 1000, Event.declareReady false,
    Event.startGame true 2000, Event.tick true 30000, Event.leave true ]

/-- The paused room after the first four C3 events. -/
def c3paused : Room :=
  { code := "33333", hostId := "h3", hostNickname := "Hei", hostRecord := none
    guestId := some "g3", guestNickname := some "Gia", guestRecord := none
    guestReady := true, status := Status.paused, currentTurn := Color.white
    turnStartTime := 2000, fen := initialFen, lastMove := none
    winner := none, loserStarts := false, previousLoser := none, messages := []
    hostLastActive := 100, guestLastActive := 1000
    disconnectedPlayer := some Side.guest, disconnectedAt := some 30000
    isPrivate := false, createdAt := 100 }

/-- The room the C3 trace ends in: the leave-while-paused forfeit write keeps
`disconnectedPlayer` and `disconnectedAt` set in a `finished` room. -/
def c3bad : Room :=
  { code := "33333", hostId := "h3", hostNickname := "Hei", hostRecord := none
    guestId := some "g3", guestNickname := some "Gia", guestRecord := none
    guestReady := true, status := Status.finished, currentTurn := Color.white
    turnStartTime := 2000, fen := initialFen, lastMove := none
    winner := some Winner.guest, loserStarts := false
    previousLoser := some Side.host, messages := []
    hostLastActive := 100, guestLastActive := 1000
    disconnectedPlayer := some Side.guest, disconnectedAt := some 30000
    isPrivate := false, createdAt := 100 }

/-- A `waiting` room in which a guest has already joined (one join step after
`createRoom "h7" "Hope" none false "77777" 100`). -/
def c7room : Room :=
  { code := "77777", hostId := "h7", hostNickname := "Hope", hostRecord := none
    guestId := some "g7", guestNickname := some "Gus", guestRecord := none
    guestReady := false, status := Status.waiting, currentTurn := Color.white
    turnStartTime := 100, fen := initialFen, lastMove := none
    winner := none, loserStarts := false, previousLoser := none, messages := []
    hostLastActive := 100, guestLastActive := 1000
    disconnectedPlayer := none, disconnectedAt := none
    isPrivate := false, createdAt := 100 }

/-- A paused room whose disconnect was stamped at 30000 and whose guest was
last active at 1000 (used against the forfeit boundary). -/
def c5room : Room :=
  { createRoom "h5" "Hye" none false "55555" 100 with
    guestId := some "g5", guestNickname := some "Gil", guestReady := true,
    status := Status.paused, turnStartTime := 2000, guestLastActive := 1000,
    disconnectedPlayer := some Side.guest, disconnectedAt := some 30000 }

/-- A paused room whose guest heartbeat is fresh again (stamped 80000). -/
def c6room : Room :=
  { createRoom "h6" "Hua" none false "66666" 100 with
    guestId := some "g6", guestNickname := some "Gem", guestReady := true,
    status := Status.paused, turnStartTime := 2000, guestLastActive := 80000,
    disconnectedPlayer := some Side.guest, disconnectedAt := some 30000 }

theorem reachable_runEvents (es : List Event) (r r' : Room)
    (h : Reachable r) (he : runEvents r es = some r') : Reachable r' := by
  induction es generalizing r with
  | nil => simp [runEvents] at he; exact he ▸ h
  | cons e rest ih =>
      simp only [runEvents] at he
      cases hs : stepRoom r e with
      | none => rw [hs] at he; exact absurd he (by simp)
      | some r1 =>
          rw [hs] at he
          exact ih r1 (Reachable.step r e r1 h hs) he

theorem forfeitCheck_eq_some (room : Room) (now : Nat) (r' : Room)
    (h : forfeitCheck room now = some r') : r' = forfeitWrite room := by
  unfold forfeitCheck at h
  cases hd : room.disconnectedAt with
  | none => simp only [hd] at h; exact absurd h (by simp)
  | some dAt =>
      simp only [hd] at h
      split at h
      · exact (Option.some.inj h).symm
      · exact absurd h (by simp)

theorem checkConnection_cases (room : Room) (isHost : Bool) (now : Nat) (r' : Room)
    (h : checkConnection room isHost now = some r') :
    r' = resumeWrite room ∨ r' = forfeitWrite room ∨
    r' = pauseWrite room isHost now := by
  simp only [checkConnection] at h
  split at h
  · exact Or.inl (Option.some.inj h).symm
  · cases hf : forfeitCheck room now with
    | some w =>
        simp only [hf] at h
        exact Or.inr (Or.inl ((Option.some.inj h).symm.trans
          (forfeitCheck_eq_some room now w hf)))
    | none =>
        simp only [hf] at h
        split at h
        · exact Or.inr (Or.inr (Option.some.inj h).symm)
        · exact absurd h (by simp)

theorem stepRoom_shapes (room : Room) (e : Event) (r' : Room)
    (h : stepRoom room e = some r') :
    r' = room ∨
    (∃ pid nick mr now, r' =
      { room with
        guestId := some pid, guestNickname := some nick,
        guestRecord := mr, guestReady := false, status := Status.waiting,
        guestLastActive := now }) ∨
    r' = guestReadyWrite room ∨
    (∃ now, r' = startGameWrite room now) ∨
    (∃ f t newFen now, r' = moveWrite room f t newFen now) ∨
    (∃ b, r' = resignWrite room b) ∨
    (∃ b, r' = leaveForfeitWrite room b) ∨
    r' = { room with guestId := none, guestNickname := none, guestReady := false } ∨
    r' = resumeWrite room ∨
    r' = forfeitWrite room ∨
    (∃ b now, r' = pauseWrite room b now) ∨
    (∃ now, r' = playAgainWrite room now) ∨
    (∃ b now, r' = sendHeartbeat room b now) ∨
    (∃ m, r' = sendMessageWrite room m) := by
  cases e with
  | join pid nick mr now =>
      simp only [stepRoom] at h
      cases hj : joinRoom (some room) pid nick mr now with
      | roomNotFound => simp only [hj] at h; exact Or.inl (Option.some.inj h).symm
      | roomFull => simp only [hj] at h; exact Or.inl (Option.some.inj h).symm
      | alreadyJoined r0 => simp only [hj] at h; exact Or.inl (Option.some.inj h).symm
      | write w =>
          simp only [hj] at h
          have hw : w = r' := Option.some.inj h
          cases hg : room.guestId with
          | some g =>
              simp only [joinRoom, hg] at hj
              split at hj <;> simp at hj
          | none =>
              simp only [joinRoom, hg, JoinResult.write.injEq] at hj
              exact Or.inr (Or.inl ⟨pid, nick, mr, now, (hj.trans hw).symm⟩)
  | declareReady b =>
      simp only [stepRoom] at h
      split at h
      · exact Or.inl (Option.some.inj h).symm
      · exact Or.inr (Or.inr (Or.inl (Option.some.inj h).symm))
  | startGame b now =>
      simp only [stepRoom] at h
      split at h
      · exact Or.inr (Or.inr (Or.inr (Or.inl ⟨now, (Option.some.inj h).symm⟩)))
      · exact Or.inl (Option.some.inj h).symm
  | move b f t newFen now =>
      simp only [stepRoom] at h
      split at h
      · exact Or.inr (Or.inr (Or.inr (Or.inr (Or.inl
          ⟨f, t, newFen, now, (Option.some.inj h).symm⟩))))
      · exact Or.inl (Option.some.inj h).symm
  | autoMove b f t newFen now =>
      simp only [stepRoom] at h
      split at h
      · exact Or.inr (Or.inr (Or.inr (Or.inr (Or.inl
          ⟨f, t, newFen, now, (Option.some.inj h).symm⟩))))
      · exact Or.inl (Option.some.inj h).symm
  | resign b =>
      simp only [stepRoom] at h
      split at h
      · exact Or.inr (Or.inr (Or.inr (Or.inr (Or.inr (Or.inl
          ⟨b, (Option.some.inj h).symm⟩)))))
      · exact Or.inl (Option.some.inj h).symm
  | leave b =>
      simp only [stepRoom] at h
      unfold handleGoHome at h
      split at h
      · exact Or.inr (Or.inr (Or.inr (Or.inr (Or.inr (Or.inr (Or.inl
          ⟨b, (Option.some.inj h).symm⟩))))))
      · split at h
        · exact absurd h (by simp)
        · exact Or.inr (Or.inr (Or.inr (Or.inr (Or.inr (Or.inr (Or.inr (Or.inl
            (Option.some.inj h).symm)))))))
  | tick b now =>
      simp only [stepRoom] at h
      split at h
      · cases hc : checkConnection room b now with
        | none => simp only [hc] at h; exact Or.inl (Option.some.inj h).symm
        | some w =>
            simp only [hc] at h
            have hw : r' = w := (Option.some.inj h).symm
            rcases checkConnection_cases room b now w hc with h9 | h10 | h11
            · exact Or.inr (Or.inr (Or.inr (Or.inr (Or.inr (Or.inr (Or.inr
                (Or.inr (Or.inl (hw.trans h9)))))))))
            · exact Or.inr (Or.inr (Or.inr (Or.inr (Or.inr (Or.inr (Or.inr
                (Or.inr (Or.inr (Or.inl (hw.trans h10))))))))))
            · exact Or.inr (Or.inr (Or.inr (Or.inr (Or.inr (Or.inr (Or.inr
                (Or.inr (Or.inr (Or.inr (Or.inl ⟨b, now, hw.trans h11⟩))))))))))
      · exact Or.inl (Option.some.inj h).symm
  | playAgain now =>
      simp only [stepRoom] at h
      exact Or.inr (Or.inr (Or.inr (Or.inr (Or.inr (Or.inr (Or.inr (Or.inr
        (Or.inr (Or.inr (Or.inr (Or.inl ⟨now, (Option.some.inj h).symm⟩)))))))))))
  | heartbeat b now =>
      simp only [stepRoom] at h
      split at h
      · exact Or.inr (Or.inr (Or.inr (Or.inr (Or.inr (Or.inr (Or.inr (Or.inr
          (Or.inr (Or.inr (Or.inr (Or.inr (Or.inl
            ⟨b, now, (Option.some.inj h).symm⟩))))))))))))
      · exact Or.inl (Option.some.inj h).symm
  | chat m =>
      simp only [stepRoom] at h
      exact Or.inr (Or.inr (Or.inr (Or.inr (Or.inr (Or.inr (Or.inr (Or.inr
        (Or.inr (Or.inr (Or.inr (Or.inr (Or.inr
          ⟨m, (Option.some.inj h).symm⟩))))))))))))

theorem trySelect_shape (oracle : Oracle) (room : Room) (isHost : Bool)
    (square : String) (cs' : ClickState)
    (h : trySelect oracle room isHost square = some cs') :
    cs' = ⟨some square, oracle.movesFrom room.fen square⟩ := by
  unfold trySelect at h
  cases hpa : oracle.pieceAt room.fen square with
  | none => simp only [hpa] at h; exact absurd h (by simp)
  | some p =>
      simp only [hpa] at h
      split at h
      · exact (Option.some.inj h).symm
      · exact absurd h (by simp)

/-- C1 amended: every committed manual move passes the click-path guard —
the room is `playing`, the `currentTurn` of the room equals the color of
the mover, and the destination lies in the stored `validMoves` of the
selected source square — and any click failing these checks issues no store
write; moreover a click only ever carries the selection state over
unchanged, clears it, or selects the clicked square with `validMoves` set
to `chess.moves` of that square on the position current at that click. The
destination of a commit need not be legal for the position current at
commit time, because the selection state survives remote position-changing
writes: see the counterexample. -/
theorem manualMove_click_guard (oracle : Oracle) (room : Room) (isHost : Bool)
    (cs : ClickState) (square : String) (now : Nat) :
    (∀ r', (handleSquareClick oracle room isHost cs square now).2 = some r' →
      room.status = Status.playing ∧
      room.currentTurn = getMyColor room isHost ∧
      ∃ sel, cs.selectedSquare = some sel ∧ square ∈ cs.validMoves ∧
        r' = moveWrite room sel square
          (oracle.applyForce room.fen sel square room.currentTurn.flip) now) ∧
    ((handleSquareClick oracle room isHost cs square now).1 = cs ∨
     (handleSquareClick oracle room isHost cs square now).1 = ⟨none, []⟩ ∨
     (handleSquareClick oracle room isHost cs square now).1 =
       ⟨some square, oracle.movesFrom room.fen square⟩) := by
  by_cases hg : room.status = Status.playing ∧ isMyTurn room isHost
  case neg =>
    simp only [handleSquareClick, if_neg hg]
    exact ⟨fun r' h => absurd h (by simp), Or.inl trivial⟩
  case pos =>
    simp only [handleSquareClick, if_pos hg]
    cases hsel : cs.selectedSquare with
    | none =>
        simp only [hsel]
        cases hts : trySelect oracle room isHost square with
        | some cs' =>
            exact ⟨fun r' h => absurd h (by simp),
                   Or.inr (Or.inr (trySelect_shape oracle room isHost square cs' hts))⟩
        | none => exact ⟨fun r' h => absurd h (by simp), Or.inl rfl⟩
    | some sel =>
        simp only [hsel]
        by_cases hmem : square ∈ cs.validMoves
        · rw [if_pos hmem]
          cases hm : handleMove oracle room sel square now with
          | none => exact ⟨fun r' h => absurd h (by simp), Or.inl rfl⟩
          | some w =>
              refine ⟨?_, Or.inr (Or.inl rfl)⟩
              rintro r' h
              obtain rfl : w = r' := Option.some.inj h
              refine ⟨hg.1, hg.2.2, sel, rfl, hmem, ?_⟩
              unfold handleMove at hm
              cases hpa : oracle.pieceAt room.fen sel with
              | none => rw [hpa] at hm; exact absurd hm (by simp)
              | some p => rw [hpa] at hm; exact (Option.some.inj hm).symm
        · rw [if_neg hmem]
          cases hts : trySelect oracle room isHost square with
          | some cs' =>
              exact ⟨fun r' h => absurd h (by simp),
                     Or.inr (Or.inr (trySelect_shape oracle room isHost square cs' hts))⟩
          | none =>
              exact ⟨fun r' h => absurd h (by simp), Or.inr (Or.inl rfl)⟩

/-- Witness for the amended C1: a concrete committed click, with the guard
conclusions evaluated at that input. -/
theorem manualMove_click_guard_witness :
    playingRoom.status = Status.playing ∧
    playingRoom.currentTurn = getMyColor playingRoom true ∧
    ∃ sel, (⟨some "e2", ["e4"]⟩ : ClickState).selectedSquare = some sel ∧
      "e4" ∈ (⟨some "e2", ["e4"]⟩ : ClickState).validMoves ∧
      moveWrite playingRoom "e2" "e4" "fen-after" 5 =
        moveWrite playingRoom sel "e4"
          (oracle1.applyForce playingRoom.fen sel "e4" playingRoom.currentTurn.flip) 5 :=
  (manualMove_click_guard oracle1 playingRoom true ⟨some "e2", ["e4"]⟩ "e4" 5).1
    (moveWrite playingRoom "e2" "e4" "fen-after" 5) (by decide)

/-- C1 counterexample: a click on the mid-game position `fen-A` selects d1
and stores its legal destinations (d5); the host resigns and the guest
clicks play again, resetting the position — neither write clears the
selection state of the host. The stale click on d5 then passes every check
of the click path and commits a store write, although d5 is not in
`chess.moves` of d1 on the current (reset) position. So a committed manual
move can violate the legality half of the guard. -/
theorem stale_selection_counterexample :
    (handleSquareClick oracle2 c1room1 true ⟨none, []⟩ "d1" 3000).1 =
      ⟨some "d1", ["d5"]⟩ ∧
    (handleSquareClick oracle2 c1room1 true ⟨none, []⟩ "d1" 3000).2 = none ∧
    stepRoom c1room1 (Event.resign true) = some c1room2 ∧
    stepRoom c1room2 (Event.playAgain 5000) = some c1room3 ∧
    (handleSquareClick oracle2 c1room3 true ⟨some "d1", ["d5"]⟩ "d5" 9000).2 =
      some (moveWrite c1room3 "d1" "d5" "fen-after-stale" 9000) ∧
    "d5" ∉ oracle2.movesFrom c1room3.fen "d1" := by decide

/-- C2 amended: in every reachable room, status `finished` implies a
non-null winner. The spec biconditional fails in the other direction: see
the counterexample, in which a guest leaves a finished room and a new guest
joins the leftover record, giving a `waiting` room with a non-null winner. -/
theorem finished_implies_winner :
    ∀ r : Room, Reachable r → r.status = Status.finished → r.winner ≠ none := by
  intro r h
  induction h with
  | init pid nick mr priv code now =>
      intro hs
      simp [createRoom] at hs
  | step r e r' hr heq ih =>
      intro hfin
      rcases stepRoom_shapes r e r' heq with
        h1 | ⟨pid, nick, mr, now, h1⟩ | h1 | ⟨now, h1⟩ | ⟨f, t, nf, now, h1⟩ |
        ⟨b, h1⟩ | ⟨b, h1⟩ | h1 | h1 | h1 | ⟨b, now, h1⟩ | ⟨now, h1⟩ |
        ⟨b, now, h1⟩ | ⟨m, h1⟩ <;> subst h1
      · exact ih hfin
      · simp at hfin
      · simp [guestReadyWrite] at hfin
      · simp [startGameWrite] at hfin
      · simp [moveWrite] at hfin
      · simp [resignWrite]
      · simp [leaveForfeitWrite]
      · exact ih hfin
      · simp [resumeWrite] at hfin
      · simp [forfeitWrite]
      · simp [pauseWrite] at hfin
      · simp [playAgainWrite] at hfin
      · cases b <;> simp [sendHeartbeat] at hfin ⊢ <;> exact ih hfin
      · exact ih hfin

/-- Witness for the amended C2 at the concrete finished room of the trace. -/
theorem finished_implies_winner_witness : c2fin.winner ≠ none :=
  finished_implies_winner c2fin
    (reachable_runEvents
      [Event.join "g1" "Bea" none 1000, Event.declareReady false,
       Event.startGame true 2000, Event.resign true]
      c2start c2fin (Reachable.init "h1" "Ann" none false "12345" 100)
      (by decide))
    rfl

/-- C2 counterexample: the trace `create, join, ready, start, resign,
guest-leave, second join` reaches a room with status `waiting` and winner
still `guest`, so `winner != null` does not imply `status == finished` over
reachable states. -/
theorem winner_iff_finished_counterexample :
    Reachable c2bad ∧ c2bad.winner = some Winner.guest ∧
    c2bad.status = Status.waiting := by
  refine ⟨?_, rfl, rfl⟩
  exact reachable_runEvents c2events c2start c2bad
    (Reachable.init "h1" "Ann" none false "12345" 100) (by decide)

/-- C3 amended: in every reachable room, status `paused` implies a non-null
`disconnectedPlayer`, and any tick write that leaves `paused` (resume or
60-second forfeit) clears both `disconnectedPlayer` and `disconnectedAt`.
The biconditional of the original claim fails because the
leave-while-paused forfeit write clears neither: see the counterexample. -/
theorem paused_disconnect_marker :
    (∀ r : Room, Reachable r → r.status = Status.paused →
      r.disconnectedPlayer ≠ none) ∧
    (∀ (room : Room) (isHost : Bool) (now : Nat) (r' : Room),
      checkConnection room isHost now = some r' → r'.status ≠ Status.paused →
      r'.disconnectedPlayer = none ∧ r'.disconnectedAt = none) := by
  constructor
  · intro r h
    induction h with
    | init pid nick mr priv code now =>
        intro hs
        simp [createRoom] at hs
    | step r e r' hr heq ih =>
        intro hp
        rcases stepRoom_shapes r e r' heq with
          h1 | ⟨pid, nick, mr, now, h1⟩ | h1 | ⟨now, h1⟩ | ⟨f, t, nf, now, h1⟩ |
          ⟨b, h1⟩ | ⟨b, h1⟩ | h1 | h1 | h1 | ⟨b, now, h1⟩ | ⟨now, h1⟩ |
          ⟨b, now, h1⟩ | ⟨m, h1⟩ <;> subst h1
        · exact ih hp
        · simp at hp
        · simp [guestReadyWrite] at hp
        · simp [startGameWrite] at hp
        · simp [moveWrite] at hp
        · simp [resignWrite] at hp
        · simp [leaveForfeitWrite] at hp
        · exact ih hp
        · simp [resumeWrite] at hp
        · simp [forfeitWrite] at hp
        · simp [pauseWrite]
        · simp [playAgainWrite] at hp
        · cases b <;> simp [sendHeartbeat] at hp ⊢ <;> exact ih hp
        · exact ih hp
  · intro room isHost now r' hc hne
    rcases checkConnection_cases room isHost now r' hc with h1 | h1 | h1 <;> subst h1
    · exact ⟨rfl, rfl⟩
    · exact ⟨rfl, rfl⟩
    · exact absurd rfl hne

/-- Witness for the amended C3 at the concrete paused room of the trace. -/
theorem paused_disconnect_marker_witness : c3paused.disconnectedPlayer ≠ none :=
  paused_disconnect_marker.1 c3paused
    (reachable_runEvents
      [Event.join "g3" "Gia" none 1000, Event.declareReady false,
       Event.startGame true 2000, Event.tick true 30000]
      c3start c3paused (Reachable.init "h3" "Hei" none false "33333" 100)
      (by decide))
    rfl

/-- C3 counterexample: a leave during `paused` yields a reachable `finished`
room with `disconnectedPlayer` still set, so `disconnectedPlayer != null`
does not imply `status == paused`, and the leave-while-paused transition
does not clear the disconnect markers. -/
theorem paused_iff_disconnect_counterexample :
    Reachable c3bad ∧ c3bad.disconnectedPlayer = some Side.guest ∧
    c3bad.disconnectedAt = some 30000 ∧ c3bad.status = Status.finished := by
  refine ⟨?_, rfl, rfl, rfl⟩
  exact reachable_runEvents c3events c3start c3bad
    (Reachable.init "h3" "Hei" none false "33333" 100) (by decide)

/-- C4: a timeout auto-move fires only when at least 30000 ms have elapsed
since `turnStartTime` with the room `playing` and the local participant
holding the current turn; and after one accepted firing, running the timer
again against the same unchanged room yields no write. -/
theorem autoMove_guard_idempotent (oracle : Oracle)
    (pick : List (String × String) → Option (String × String))
    (room : Room) (isHost : Bool) (now nowLater : Nat) (w : Room)
    (h : (updateTimer oracle pick room isHost false now).2 = some w) :
    30000 ≤ now - room.turnStartTime ∧
    room.status = Status.playing ∧
    room.currentTurn = getMyColor room isHost ∧
    (updateTimer oracle pick room isHost
      (updateTimer oracle pick room isHost false now).1 nowLater).2 = none := by
  rw [updateTimer] at h
  split at h
  case isFalse => exact absurd h (by simp)
  case isTrue hcond =>
    have h30 : 30000 ≤ now - room.turnStartTime := by
      have h0 := hcond.1
      omega
    have hfst : (updateTimer oracle pick room isHost false now).1 = true := by
      rw [updateTimer]
      split
      case isTrue =>
        split
        · split
          · rfl
          · rfl
        · rfl
      case isFalse hneg => exact absurd hcond hneg
    refine ⟨h30, hcond.2.1.1, hcond.2.1.2, ?_⟩
    rw [hfst, updateTimer]
    rw [if_neg (fun hx => absurd hx.2.2 (by decide))]

/-- Witness for C4: a concrete auto-move fires at 30000 ms and the second
timer run against the unchanged room is rejected. -/
theorem autoMove_guard_idempotent_witness :
    30000 ≤ 30000 - playingRoom.turnStartTime ∧
    playingRoom.status = Status.playing ∧
    playingRoom.currentTurn = getMyColor playingRoom true ∧
    (updateTimer oracle1 List.head? playingRoom true
      (updateTimer oracle1 List.head? playingRoom true false 30000).1 31000).2 = none :=
  autoMove_guard_idempotent oracle1 List.head? playingRoom true 30000 31000
    (moveWrite playingRoom "e2" "e4" "fen-after" 30000) (by decide)

/-- C5 counterexample: at `now = 90000` exactly 60000 ms have elapsed since
`disconnectedAt = 30000` — "at least 60 seconds" — with no resume in sight,
yet the tick writes nothing, because the source fires the forfeit only for
`pausedDuration > 60000`, strictly. -/
theorem forfeit_boundary_counterexample :
    c5room.status = Status.paused ∧ c5room.disconnectedAt = some 30000 ∧
    90000 - 30000 = 60000 ∧
    15000 ≤ 90000 - opponentLastActive c5room true ∧
    checkConnection c5room true 90000 = none := by decide

/-- C5 amended: once strictly more than 60000 ms have elapsed since
`disconnectedAt` with no resume (the peer heartbeat at least 15000 ms
stale), the tick writes the forfeit: status `finished`, winner the
non-disconnected side, `previousLoser` the disconnected side. -/
theorem forfeit_after_60s (room : Room) (isHost : Bool) (now dAt : Nat) (d : Side)
    (hp : room.status = Status.paused)
    (hdAt : room.disconnectedAt = some dAt) (hz : dAt ≠ 0)
    (hdp : room.disconnectedPlayer = some d)
    (hdur : 60000 < now - dAt)
    (hstale : 15000 ≤ now - opponentLastActive room isHost) :
    checkConnection room isHost now = some (forfeitWrite room) ∧
    (forfeitWrite room).status = Status.finished ∧
    (forfeitWrite room).winner = some d.other.toWinner ∧
    (forfeitWrite room).previousLoser = some d := by
  refine ⟨?_, rfl, ?_, ?_⟩
  · have hf : forfeitCheck room now = some (forfeitWrite room) := by
      simp only [forfeitCheck, hdAt]
      rw [if_pos ⟨hp, hz, hdur⟩]
    simp only [checkConnection, hf]
    rw [if_neg (by
      rintro ⟨-, hlt, -⟩
      exact absurd hlt (Nat.not_lt.mpr hstale))]
  · cases d with
    | host => simp [forfeitWrite, hdp, Side.other, Side.toWinner]
    | guest => simp [forfeitWrite, hdp, Side.other, Side.toWinner]
  · simp [forfeitWrite, hdp]

/-- Witness for the amended C5: one tick past the strict 60000 ms bound at a
concrete paused room. -/
theorem forfeit_after_60s_witness :
    checkConnection c5room true 93000 = some (forfeitWrite c5room) ∧
    (forfeitWrite c5room).winner = some Winner.host ∧
    (forfeitWrite c5room).previousLoser = some Side.guest := by
  have h := forfeit_after_60s c5room true 93000 30000 Side.guest (by decide)
    (by decide) (by decide) (by decide) (by decide) (by decide)
  exact ⟨h.1, h.2.2.1, h.2.2.2⟩

/-- C6: the resume write — triggered while `paused` with the peer heartbeat
fresher than 15000 ms and a disconnected side recorded — is exactly the room
with status `playing` and the two disconnect markers cleared; in particular
`winner` and `turnStartTime` are unchanged. -/
theorem resume_frame (room : Room) (isHost : Bool) (now : Nat)
    (hp : room.status = Status.paused)
    (hfresh : now - opponentLastActive room isHost < 15000)
    (hdp : room.disconnectedPlayer ≠ none) :
    checkConnection room isHost now =
      some { room with
             status := Status.playing, disconnectedPlayer := none,
             disconnectedAt := none } ∧
    (resumeWrite room).winner = room.winner ∧
    (resumeWrite room).turnStartTime = room.turnStartTime := by
  refine ⟨?_, rfl, rfl⟩
  simp only [checkConnection]
  rw [if_pos ⟨hp, hfresh, hdp⟩]
  rfl

/-- Witness for C6: resume at a concrete paused room. -/
theorem resume_frame_witness :
    checkConnection c6room true 90000 =
      some { c6room with
             status := Status.playing, disconnectedPlayer := none,
             disconnectedAt := none } :=
  (resume_frame c6room true 90000 (by decide) (by decide) (by decide)).1

/-- C7 counterexample: the host leaving a `waiting` room in which a guest
has already joined deletes the record — reachable by `create, join` — so
the record is not deleted only in the no-guest case, and does not persist
until both participants have left. -/
theorem leave_deletes_with_guest_counterexample :
    Reachable c7room ∧ c7room.guestId = some "g7" ∧
    c7room.status = Status.waiting ∧
    stepRoom c7room (Event.leave true) = none := by
  refine ⟨?_, rfl, rfl, by decide⟩
  exact reachable_runEvents [Event.join "g7" "Gus" none 1000]
    (createRoom "h7" "Hope" none false "77777" 100) c7room
    (Reachable.init "h7" "Hope" none false "77777" 100) (by decide)

/-- C7 amended: a leave deletes the record exactly when the leaver is the
host and the status is neither `playing` nor `paused`, regardless of guest
presence; a leave during `playing`/`paused` instead writes `finished` with
the leaver forfeiting, and a guest leave never deletes. -/
theorem leave_behaviour (room : Room) (isHost : Bool) :
    (stepRoom room (Event.leave isHost) = none ↔
      isHost = true ∧ room.status ≠ Status.playing ∧
        room.status ≠ Status.paused) ∧
    (room.status = Status.playing ∨ room.status = Status.paused →
      stepRoom room (Event.leave isHost) =
        some { room with
               status := Status.finished,
               winner := some (if isHost then Winner.guest else Winner.host),
               previousLoser :=
                 some (if isHost then Side.host else Side.guest) }) := by
  constructor
  · simp only [stepRoom]
    unfold handleGoHome
    by_cases hs : room.status = Status.playing ∨ room.status = Status.paused
    · rw [if_pos hs]
      constructor
      · intro h; exact absurd h (by simp)
      · rintro ⟨-, hnp, hnpa⟩
        rcases hs with hs | hs
        · exact absurd hs hnp
        · exact absurd hs hnpa
    · rw [if_neg hs]
      push_neg at hs
      cases isHost with
      | true => simp [hs.1, hs.2]
      | false => simp
  · intro hs
    simp only [stepRoom]
    unfold handleGoHome
    rw [if_pos hs]
    rfl

/-- Witness for the amended C7: a concrete host leave outside play deletes
the record, and a concrete guest leave during play writes the forfeit. -/
theorem leave_behaviour_witness :
    stepRoom c7room (Event.leave true) = none ∧
    stepRoom playingRoom (Event.leave false) =
      some { playingRoom with
             status := Status.finished, winner := some Winner.host,
             previousLoser := some Side.guest } := by
  constructor
  · exact (leave_behaviour c7room true).1.mpr ⟨rfl, by decide, by decide⟩
  · exact (leave_behaviour playingRoom false).2 (Or.inl rfl)

/-- C8: the color-assignment function maps `previousLoser = host` to a white
host, `previousLoser = guest` to a black host, and a null `previousLoser` to
a white host, and the guest always holds the opposite color. -/
theorem color_assignment_rule (room : Room) :
    (room.previousLoser = some Side.host → getMyColor room true = Color.white) ∧
    (room.previousLoser = some Side.guest → getMyColor room true = Color.black) ∧
    (room.previousLoser = none → getMyColor room true = Color.white) ∧
    getMyColor room false = (getMyColor room true).flip := by
  cases h : room.previousLoser with
  | none => simp [getMyColor, h, Color.flip]
  | some s => cases s <;> simp [getMyColor, h, Color.flip]

/-- Witness for C8 at concrete rooms with `previousLoser = host` and with
`previousLoser = null`. -/
theorem color_assignment_rule_witness :
    getMyColor { playingRoom with previousLoser := some Side.host } true =
      Color.white ∧
    getMyColor playingRoom true = Color.white :=
  ⟨(color_assignment_rule _).1 rfl, (color_assignment_rule playingRoom).2.2.1 rfl⟩

/-- C9: a join against an absent room code is the room-not-found error (no
write); a join with a different guest already present is the room-is-full
error (no write); with no guest present, the join write sets the guest
identity and nickname, clears `guestReady`, and results in status
`waiting`. -/
theorem joinRoom_spec (data : Option Room) (pid nick : String)
    (mr : Option (Nat × Nat)) (now : Nat) :
    (data = none → joinRoom data pid nick mr now = JoinResult.roomNotFound) ∧
    (∀ r g, data = some r → r.guestId = some g → g ≠ pid →
      joinRoom data pid nick mr now = JoinResult.roomFull) ∧
    (∀ r, data = some r → r.guestId = none →
      joinRoom data pid nick mr now = JoinResult.write
        { r with
          guestId := some pid, guestNickname := some nick,
          guestRecord := mr, guestReady := false, status := Status.waiting,
          guestLastActive := now }) := by
  refine ⟨?_, ?_, ?_⟩
  · rintro rfl; rfl
  · rintro r g rfl hg hne; simp [joinRoom, hg, hne]
  · rintro r rfl hg; simp [joinRoom, hg]

/-- Witness for C9: the two error outcomes at concrete inputs. -/
theorem joinRoom_spec_witness :
    joinRoom none "p1" "Nia" none 0 = JoinResult.roomNotFound ∧
    joinRoom (some playingRoom) "p1" "Nia" none 0 = JoinResult.roomFull := by
  constructor
  · exact (joinRoom_spec none "p1" "Nia" none 0).1 rfl
  · exact (joinRoom_spec (some playingRoom) "p1" "Nia" none 0).2.1
      playingRoom "g0" rfl rfl (by decide)

/-- C10: committed move writes (manual and timeout auto-move) set status
`playing` and winner `null` unconditionally; a step reaches `finished` only
through resign, leave, or a connection tick (disconnect forfeit); and no
reachable room ever carries winner `draw`. -/
theorem no_move_ends_game :
    (∀ (oracle : Oracle) (room : Room) (f t : String) (now : Nat) (r' : Room),
      handleMove oracle room f t now = some r' →
      r'.status = Status.playing ∧ r'.winner = none) ∧
    (∀ (oracle : Oracle)
      (pick : List (String × String) → Option (String × String))
      (room : Room) (isHost autoMoved : Bool) (now : Nat) (r' : Room),
      (updateTimer oracle pick room isHost autoMoved now).2 = some r' →
      r'.status = Status.playing ∧ r'.winner = none) ∧
    (∀ (room : Room) (e : Event) (r' : Room),
      stepRoom room e = some r' → r'.status = Status.finished →
      room.status = Status.finished ∨
      (∃ b, e = Event.resign b) ∨ (∃ b, e = Event.leave b) ∨
      (∃ b now, e = Event.tick b now)) ∧
    (∀ r : Room, Reachable r → r.winner ≠ some Winner.draw) := by
  refine ⟨?_, ?_, ?_, ?_⟩
  · intro oracle room f t now r' h
    unfold handleMove at h
    cases hpa : oracle.pieceAt room.fen f with
    | none => rw [hpa] at h; exact absurd h (by simp)
    | some p =>
        rw [hpa] at h
        obtain rfl := (Option.some.inj h).symm
        exact ⟨rfl, rfl⟩
  · intro oracle pick room isHost autoMoved now r' h
    rw [updateTimer] at h
    split at h
    · split at h
      · split at h
        · obtain rfl := (Option.some.inj h).symm
          exact ⟨rfl, rfl⟩
        · exact absurd h (by simp)
      · exact absurd h (by simp)
    · exact absurd h (by simp)
  · intro room e r' h hfin
    cases e with
    | resign b => exact Or.inr (Or.inl ⟨b, rfl⟩)
    | leave b => exact Or.inr (Or.inr (Or.inl ⟨b, rfl⟩))
    | tick b now => exact Or.inr (Or.inr (Or.inr ⟨b, now, rfl⟩))
    | join pid nick mr now =>
        left
        simp only [stepRoom] at h
        cases hj : joinRoom (some room) pid nick mr now with
        | roomNotFound =>
            simp only [hj] at h
            obtain rfl := (Option.some.inj h).symm; exact hfin
        | roomFull =>
            simp only [hj] at h
            obtain rfl := (Option.some.inj h).symm; exact hfin
        | alreadyJoined r0 =>
            simp only [hj] at h
            obtain rfl := (Option.some.inj h).symm; exact hfin
        | write w =>
            simp only [hj] at h
            obtain rfl := (Option.some.inj h).symm
            cases hg : room.guestId with
            | some g =>
                simp only [joinRoom, hg] at hj
                split at hj <;> simp at hj
            | none =>
                simp only [joinRoom, hg, JoinResult.write.injEq] at hj
                rw [← hj] at hfin
                simp at hfin
    | declareReady b =>
        simp only [stepRoom] at h
        split at h <;> obtain rfl := (Option.some.inj h).symm
        · exact Or.inl hfin
        · exact absurd hfin (by simp [guestReadyWrite])
    | startGame b now =>
        simp only [stepRoom] at h
        split at h <;> obtain rfl := (Option.some.inj h).symm
        · exact absurd hfin (by simp [startGameWrite])
        · exact Or.inl hfin
    | move b f t nf now =>
        simp only [stepRoom] at h
        split at h <;> obtain rfl := (Option.some.inj h).symm
        · exact absurd hfin (by simp [moveWrite])
        · exact Or.inl hfin
    | autoMove b f t nf now =>
        simp only [stepRoom] at h
        split at h <;> obtain rfl := (Option.some.inj h).symm
        · exact absurd hfin (by simp [moveWrite])
        · exact Or.inl hfin
    | playAgain now =>
        simp only [stepRoom] at h
        obtain rfl := (Option.some.inj h).symm
        exact absurd hfin (by simp [playAgainWrite])
    | heartbeat b now =>
        simp only [stepRoom] at h
        split at h <;> obtain rfl := (Option.some.inj h).symm
        · left
          cases b <;> simp [sendHeartbeat] at hfin <;> exact hfin
        · exact Or.inl hfin
    | chat m =>
        simp only [stepRoom] at h
        obtain rfl := (Option.some.inj h).symm
        exact Or.inl hfin
  · intro r h
    induction h with
    | init pid nick mr priv code now => simp [createRoom]
    | step r e r' hr heq ih =>
        rcases stepRoom_shapes r e r' heq with
          h1 | ⟨pid, nick, mr, now, h1⟩ | h1 | ⟨now, h1⟩ | ⟨f, t, nf, now, h1⟩ |
          ⟨b, h1⟩ | ⟨b, h1⟩ | h1 | h1 | h1 | ⟨b, now, h1⟩ | ⟨now, h1⟩ |
          ⟨b, now, h1⟩ | ⟨m, h1⟩ <;> subst h1
        · exact ih
        · exact ih
        · exact ih
        · exact ih
        · simp [moveWrite]
        · cases b <;> simp [resignWrite]
        · cases b <;> simp [leaveForfeitWrite]
        · exact ih
        · exact ih
        · simp only [forfeitWrite]
          split <;> simp
        · exact ih
        · simp [playAgainWrite]
        · cases b <;> exact ih
        · exact ih

/-- Witness for C10: the move-write fields at a concrete input, and the
no-draw invariant at a concrete reachable room. -/
theorem no_move_ends_game_witness :
    (moveWrite playingRoom "e2" "e4" "fen-after" 5).status = Status.playing ∧
    (moveWrite playingRoom "e2" "e4" "fen-after" 5).winner = none ∧
    (createRoom "hx" "Nyx" none false "90000" 7).winner ≠ some Winner.draw := by
  refine ⟨?_, ?_, ?_⟩
  · exact (no_move_ends_game.1 oracle1 playingRoom "e2" "e4" 5
      (moveWrite playingRoom "e2" "e4" "fen-after" 5) (by decide)).1
  · exact (no_move_ends_game.1 oracle1 playingRoom "e2" "e4" 5
      (moveWrite playingRoom "e2" "e4" "fen-after" 5) (by decide)).2
  · exact no_move_ends_game.2.2.2 (createRoom "hx" "Nyx" none false "90000" 7)
      (Reachable.init "hx" "Nyx" none false "90000" 7)

end ChessGame
